import Mathlib

/-!
Verification of the clustered profile search engine
(`src/services/search/profiles.py`, `src/services/vector_store/write.py`,
`src/services/clustering/kmean.py`) against its natural-language
specification.  The Python code is shallowly embedded: per-query floating
point work (embedding the query, L2 normalization, inner products) is
abstracted into integer similarity scores supplied as data, stateful
services become explicit parameters, and Python exceptions become
`Except` values.
-/

namespace MercorSearch

/-- Python `str.lower()` (ASCII model); strings are handled as their
character lists so that every operation reduces in the kernel. -/
def pyLower (l : List Char) : List Char := l.map Char.toLower

/-- Python `str.strip()`: drop whitespace from both ends. -/
def pyStrip (l : List Char) : List Char :=
  ((l.dropWhile Char.isWhitespace).reverse.dropWhile Char.isWhitespace).reverse

/-- `skill.lower().strip()` as applied to both sides of the skill checks. -/
def lowerStrip (s : String) : List Char := pyStrip (pyLower s.data)

/-- Python substring containment `small in big` for strings. -/
def containsSub (big small : List Char) : Bool :=
  (List.range (big.length + 1)).any
    (fun i => small.isPrefixOf (big.drop i))

/-- Python truthiness of an optional list value (`None` and `[]` are falsy). -/
def truthy (o : Option (List String)) : Bool :=
  match o with
  | none => false
  | some l => !l.isEmpty

/-- The fields of `ProfileData` (src/dtos/services/etl/profile.py) read by the
search path.  In the DTO, `experience_years`, `industry` and `connections` are
Optional with default None; `skills`, `work_locations` and `study_locations`
default to empty lists and are never None.  `company` and `education` are NOT
declared fields: with `model_config extra allow` they exist on an instance only
when the payload supplied them, so they are modelled as `Option String` where
`none` means attribute access fails.  Float years are modelled as integers. -/
structure ProfileData where
  experience_years : Option Int := none
  skills : List String := []
  work_locations : List String := []
  study_locations : List String := []
  industry : Option String := none
  company : Option String := none
  education : Option String := none
  connections : Option Int := none
deriving DecidableEq

/-- Embedding of `HardCriteria` (src/dtos/services/search/hard_criteria.py):
an optional-field bag of filter constraints, every field defaulting to None. -/
structure HardCriteria where
  min_experience : Option Int := none
  max_experience : Option Int := none
  required_skills : Option (List String) := none
  excluded_skills : Option (List String) := none
  locations : Option (List String) := none
  industries : Option (List String) := none
  companies : Option (List String) := none
  min_connections : Option Int := none
  education_keywords : Option (List String) := none
deriving DecidableEq

deriving instance DecidableEq for Except

/-- Python exceptions the embedded search path can raise. -/
inductive PyErr where
  | typeError
  | attributeError
  | indexError
deriving DecidableEq

/-- Experience lower bound (profiles.py lines 59-63):
`criteria.min_experience is not None and profile.experience_years < ...`.
When the bound is present and `experience_years` is None, the Python
comparison `None < int` raises TypeError. -/
def catExpMin (p : ProfileData) (c : HardCriteria) : Except PyErr Bool :=
  match c.min_experience with
  | none => Except.ok true
  | some m =>
    match p.experience_years with
    | none => Except.error PyErr.typeError
    | some e => Except.ok (decide (¬ e < m))

/-- Experience upper bound (profiles.py lines 65-69). -/
def catExpMax (p : ProfileData) (c : HardCriteria) : Except PyErr Bool :=
  match c.max_experience with
  | none => Except.ok true
  | some m =>
    match p.experience_years with
    | none => Except.error PyErr.typeError
    | some e => Except.ok (decide (¬ m < e))

/-- Required skills, lenient OR (profiles.py lines 73-85): lower+strip both
sides, at least one required skill must be a member of the profile skill
list. -/
def catRequiredSkills (p : ProfileData) (c : HardCriteria) : Except PyErr Bool :=
  if truthy c.required_skills then
    Except.ok (((c.required_skills.getD []).map lowerStrip).any
      (fun r => (p.skills.map lowerStrip).contains r))
  else Except.ok true

/-- Excluded skills, strict (profiles.py lines 90-101): any excluded skill
present disqualifies. -/
def catExcludedSkills (p : ProfileData) (c : HardCriteria) : Except PyErr Bool :=
  if truthy c.excluded_skills then
    Except.ok (!((c.excluded_skills.getD []).map lowerStrip).any
      (fun x => (p.skills.map lowerStrip).contains x))
  else Except.ok true

/-- Locations, lenient OR (profiles.py lines 105-116): the profile location
set is the union of lowered work and study locations (always lists, never
None, so this category cannot raise). -/
def catLocations (p : ProfileData) (c : HardCriteria) : Except PyErr Bool :=
  if truthy c.locations then
    Except.ok ((c.locations.getD []).any
      (fun loc => ((p.work_locations ++ p.study_locations).map (fun w => pyLower w.data)).contains
        (pyLower loc.data)))
  else Except.ok true

/-- Industries, lenient OR (profiles.py lines 120-125): substring match
`ind.lower() in profile.industry.lower()`; with a non-empty criterion list and
`industry` None, `.lower()` on None raises AttributeError. -/
def catIndustries (p : ProfileData) (c : HardCriteria) : Except PyErr Bool :=
  if truthy c.industries then
    match p.industry with
    | none => Except.error PyErr.attributeError
    | some ind =>
      Except.ok ((c.industries.getD []).any
        (fun i => containsSub (pyLower ind.data) (pyLower i.data)))
  else Except.ok true

/-- Companies, lenient OR (profiles.py lines 129-134): `profile.company` is
not a declared DTO field; when the attribute is absent, access raises
AttributeError. -/
def catCompanies (p : ProfileData) (c : HardCriteria) : Except PyErr Bool :=
  if truthy c.companies then
    match p.company with
    | none => Except.error PyErr.attributeError
    | some comp =>
      Except.ok ((c.companies.getD []).any
        (fun i => containsSub (pyLower comp.data) (pyLower i.data)))
  else Except.ok true

/-- Education keywords, lenient OR (profiles.py lines 139-144):
`profile.education` is not a declared DTO field either. -/
def catEducation (p : ProfileData) (c : HardCriteria) : Except PyErr Bool :=
  if truthy c.education_keywords then
    match p.education with
    | none => Except.error PyErr.attributeError
    | some ed =>
      Except.ok ((c.education_keywords.getD []).any
        (fun i => containsSub (pyLower ed.data) (pyLower i.data)))
  else Except.ok true

/-- Sequencing of the category checks in source order: an earlier `continue`
(ok false) skips the later categories, an earlier exception aborts. -/
def exAnd (a b : Except PyErr Bool) : Except PyErr Bool :=
  match a with
  | Except.error e => Except.error e
  | Except.ok false => Except.ok false
  | Except.ok true => b

/-- One iteration of the loop body of
`SearchProfilesService.apply_hard_criteria` (profiles.py lines 53-146):
ok true when the profile survives every category, ok false when some category
hits `continue`, error when the code raises. -/
def check_profile (p : ProfileData) (c : HardCriteria) : Except PyErr Bool :=
  exAnd (catExpMin p c)
    (exAnd (catExpMax p c)
      (exAnd (catRequiredSkills p c)
        (exAnd (catExcludedSkills p c)
          (exAnd (catLocations p c)
            (exAnd (catIndustries p c)
              (exAnd (catCompanies p c) (catEducation p c)))))))

/-- Embedding of `SearchProfilesService.apply_hard_criteria` (profiles.py
lines 40-148): iterate the candidate indices, look up `self.profiles[idx]`
(IndexError when out of range), keep the indices whose profile survives every
category, in input order. -/
def apply_hard_criteria (profiles : List ProfileData) (profile_indices : List Nat)
    (criteria : HardCriteria) : Except PyErr (List Nat) :=
  match profile_indices with
  | [] => Except.ok []
  | idx :: rest =>
    match profiles.get? idx with
    | none => Except.error PyErr.indexError
    | some p =>
      match check_profile p criteria with
      | Except.error e => Except.error e
      | Except.ok true =>
        match apply_hard_criteria profiles rest criteria with
        | Except.error e => Except.error e
        | Except.ok r => Except.ok (idx :: r)
      | Except.ok false => apply_hard_criteria profiles rest criteria

example : apply_hard_criteria [{ connections := some 3 }] [0]
    { min_connections := some 500 } = Except.ok [0] := by decide

example : apply_hard_criteria [{ experience_years := none }] [0]
    { min_experience := some 1 } = Except.error PyErr.typeError := by decide

example : apply_hard_criteria [{ experience_years := some 5, skills := ["Python"] }] [0]
    { min_experience := some 2, required_skills := some [" python "] } = Except.ok [0] := by
  decide

example : apply_hard_criteria
    [{ experience_years := some 5, industry := some "Information Technology" }] [0]
    { industries := some ["tech"] } = Except.ok [0] := by decide

/-! ## Cluster index build (src/services/vector_store/write.py) -/

/-- Embedding of the mask/where step of `VectorStoreWriteService.write`
(write.py lines 37-39): the ordered list of original corpus positions whose
cluster label equals the target label
(`np.where(cluster_labels == target_cluster_label)[0]`). -/
def cluster_profile_indices (cluster_labels : List Nat) (target : Nat) : List Nat :=
  (List.range cluster_labels.length).filter
    (fun i => cluster_labels.get? i == some target)

/-- Embedding of `embeddings[cluster_mask]` (write.py line 38): the member
embeddings of the target cluster, in original corpus order; these are the
vectors added to the cluster index, so storage order = this list order. -/
def cluster_embeddings {V : Type} (embeddings : List V) (cluster_labels : List Nat)
    (target : Nat) : List V :=
  ((cluster_labels.zip embeddings).filter (fun pr => pr.1 == target)).map (fun pr => pr.2)

example : cluster_profile_indices [0, 1, 0, 2, 1] 1 = [1, 4] := by decide
example : cluster_embeddings [10, 11, 12, 13, 14] [0, 1, 0, 2, 1] 1 = [11, 14] := by decide

/-! ## Automatic cluster-count selection (src/services/clustering/kmean.py) -/

/-- Python `range(a, b)`. -/
def pyRange (a b : Nat) : List Nat := List.range' a (b - a)

/-- `np.argmax`: index of the first maximal element; `none` models the
ValueError numpy raises on an empty sequence. -/
def np_argmax (l : List Int) : Option Nat :=
  (l.enum.foldl
    (fun acc p =>
      match acc with
      | none => some p
      | some q => if q.2 < p.2 then some p else some q)
    none).map (fun p => p.1)

example : np_argmax [3, 5, 5, 1] = some 1 := by decide
example : np_argmax [] = none := by decide

/-- Failure conditions for automatic cluster-count selection.  `valueError`
is the numpy ValueError raised by `np.argmax` on an empty sequence;
`dataInsufficient` is the DataInsufficient condition of the specification
error taxonomy (never produced by the code). -/
inductive ClusterError where
  | valueError
  | dataInsufficient
deriving DecidableEq

/-- Embedding of `KMeansClusteringService.find_optimal_clusters` (kmean.py
lines 26-70).  Only the control flow is relevant: the KMeans fits and the
silhouette metric are external float computations, abstracted by
`silhouette : Nat → Int` giving the score for each candidate k; `n_embeddings`
is `len(embeddings)`.  For corpora over 100000 a subsample of exactly
min(100000, n) rows is drawn, so only the length matters here.
The code computes `k_range = range(5, min(max_k, sample_size // 10))` and
returns `k_range[np.argmax(silhouette_scores)]`. -/
def find_optimal_clusters (silhouette : Nat → Int) (n_embeddings : Nat)
    (max_k : Nat) : Except ClusterError Nat :=
  let sample_size := if 100000 < n_embeddings then min 100000 n_embeddings else n_embeddings
  let k_range := pyRange 5 (min max_k (sample_size / 10))
  let silhouette_scores := k_range.map silhouette
  match np_argmax silhouette_scores with
  | none => Except.error ClusterError.valueError
  | some j => Except.ok (k_range.getD j 0)

example : find_optimal_clusters (fun _ => 0) 200 100 = Except.ok 5 := by decide
example : find_optimal_clusters (fun k => if k = 7 then 9 else 1) 200 100 = Except.ok 7 := by
  decide
example : find_optimal_clusters (fun _ => 0) 49 100 = Except.error ClusterError.valueError := by
  decide

/-! ## Stable descending sort, the model of Python list.sort with a key and
reverse=True (guaranteed stable). -/

/-- Stable insert for a descending sort: x moves past every element whose key
is at least its own, so elements inserted later (further right in the input)
never overtake earlier ones with an equal key. -/
def insertDesc {α : Type} (key : α → Int) (x : α) : List α → List α
  | [] => [x]
  | y :: ys => if key y < key x then x :: y :: ys else y :: insertDesc key x ys

/-- Stable descending sort by key. -/
def sortDesc {α : Type} (key : α → Int) (l : List α) : List α :=
  l.foldl (fun acc x => insertDesc key x acc) []

example : sortDesc id [3, 1, 4, 1, 5] = [5, 4, 3, 1, 1] := by decide
example : sortDesc (fun p => p.2) [(0, 5), (1, 9), (2, 5)] = [(1, 9), (0, 5), (2, 5)] := by
  decide

theorem perm_insertDesc {α : Type} (key : α → Int) (x : α) (l : List α) :
    List.Perm (insertDesc key x l) (x :: l) := by
  induction l with
  | nil => simp [insertDesc]
  | cons y ys ih =>
    by_cases h : key y < key x
    · simp [insertDesc, h]
    · simp only [insertDesc, if_neg h]
      exact List.Perm.trans (List.Perm.cons y ih) (List.Perm.swap x y ys)

theorem perm_sortDesc {α : Type} (key : α → Int) (l : List α) :
    List.Perm (sortDesc key l) l := by
  suffices h : ∀ acc : List α, List.Perm (l.foldl (fun acc x => insertDesc key x acc) acc) (l.reverse ++ acc) by
    have := h []
    simpa using List.Perm.trans this (by simp)
  induction l with
  | nil => intro acc; simp
  | cons y ys ih =>
    intro acc
    simp only [List.foldl_cons, List.reverse_cons, List.append_assoc, List.singleton_append]
    exact List.Perm.trans (ih (insertDesc key y acc))
      (List.Perm.append_left ys.reverse (perm_insertDesc key y acc))

theorem mem_sortDesc {α : Type} (key : α → Int) (l : List α) (a : α) :
    a ∈ sortDesc key l ↔ a ∈ l :=
  (perm_sortDesc key l).mem_iff

theorem length_sortDesc {α : Type} (key : α → Int) (l : List α) :
    (sortDesc key l).length = l.length :=
  (perm_sortDesc key l).length_eq

theorem sorted_insertDesc {α : Type} (key : α → Int) (x : α) (l : List α)
    (h : List.Sorted (fun a b => key b ≤ key a) l) :
    List.Sorted (fun a b => key b ≤ key a) (insertDesc key x l) := by
  induction l with
  | nil => simp [insertDesc]
  | cons y ys ih =>
    rw [List.sorted_cons] at h
    by_cases hxy : key y < key x
    · simp only [insertDesc, if_pos hxy]
      rw [List.sorted_cons]
      refine ⟨?_, List.sorted_cons.mpr h⟩
      intro b hb
      rcases List.mem_cons.mp hb with rfl | hb
      · exact le_of_lt hxy
      · exact le_trans (h.1 b hb) (le_of_lt hxy)
    · simp only [insertDesc, if_neg hxy]
      rw [List.sorted_cons]
      refine ⟨?_, ih h.2⟩
      intro b hb
      rcases List.mem_cons.mp ((perm_insertDesc key x ys).mem_iff.mp hb) with rfl | hb
      · exact le_of_not_lt hxy
      · exact h.1 b hb

theorem sorted_sortDesc {α : Type} (key : α → Int) (l : List α) :
    List.Sorted (fun a b => key b ≤ key a) (sortDesc key l) := by
  suffices h : ∀ acc : List α, List.Sorted (fun a b => key b ≤ key a) acc →
      List.Sorted (fun a b => key b ≤ key a) (l.foldl (fun acc x => insertDesc key x acc) acc) by
    exact h [] (by simp)
  induction l with
  | nil => intro acc hacc; simpa using hacc
  | cons y ys ih =>
    intro acc hacc
    exact ih (insertDesc key y acc) (sorted_insertDesc key y acc hacc)

theorem filter_key_eq_nil_of_lt {α : Type} (key : α → Int) (l : List α) (s : Int) (b : Int)
    (hb : b < s) (h : ∀ a ∈ l, key a ≤ b) :
    l.filter (fun a => key a == s) = [] := by
  rw [List.filter_eq_nil_iff]
  intro a ha
  simp only [beq_iff_eq]
  exact ne_of_lt (lt_of_le_of_lt (h a ha) hb)

theorem filter_insertDesc {α : Type} (key : α → Int) (x : α) (l : List α) (s : Int)
    (hl : List.Sorted (fun a b => key b ≤ key a) l) :
    (insertDesc key x l).filter (fun a => key a == s) =
      l.filter (fun a => key a == s) ++ (if key x == s then [x] else []) := by
  induction l with
  | nil => by_cases hx : key x == s <;> simp [insertDesc, hx]
  | cons y ys ih =>
    rw [List.sorted_cons] at hl
    by_cases hxy : key y < key x
    · simp only [insertDesc, if_pos hxy]
      by_cases hx : key x = s
      · have hys : (y :: ys).filter (fun a => key a == s) = [] := by
          refine filter_key_eq_nil_of_lt key (y :: ys) s (key y) (hx ▸ hxy) ?_
          intro a ha
          rcases List.mem_cons.mp ha with rfl | ha
          · exact le_refl _
          · exact hl.1 a ha
        simp [List.filter_cons, hys, hx]
      · have hx2 : (key x == s) = false := beq_eq_false_iff_ne.mpr hx
        simp [List.filter_cons, hx2]
    · simp only [insertDesc, if_neg hxy]
      by_cases hy : key y == s <;> simp [List.filter_cons, hy, ih hl.2]

/-! ## Query router (SearchProfilesService.find_relevant_clusters,
profiles.py lines 150-186) -/

/-- Embedding of `find_relevant_clusters`.  The query embedding, the L2
normalizations and the dot products against the centroids are external float
computations, abstracted by `sims`: the similarity of the (normalized) query
with the (normalized) centroid at each position, so `sims.enum` is the
`cluster_similarities` list of (cluster_id, similarity) pairs.  `indexed` is
the key set of `self.faiss_indices`.  The code sorts the pairs by similarity
descending (Python stable sort), slices the first `top_k_clusters`, and only
then drops the ids without a built index. -/
def find_relevant_clusters (sims : List Int) (indexed : List Nat)
    (top_k_clusters : Nat) : List Nat :=
  (((sortDesc (fun p => p.2) sims.enum).take top_k_clusters).filter
    (fun p => decide (p.1 ∈ indexed))).map (fun p => p.1)

example : find_relevant_clusters [5, 9, 1] [0, 2] 2 = [0] := by decide
example : find_relevant_clusters [5, 9, 1] [0, 1, 2] 2 = [1, 0] := by decide
example : find_relevant_clusters [] [] 5 = [] := by decide

/-! ## Per-cluster similarity search and candidate mapping
(SearchProfilesService.search, profiles.py lines 188-267) -/

/-- Per-cluster artifact held in `self.faiss_indices[cluster_id]` (built by
write.py lines 71-75): the stored index is abstracted, for the fixed query of
one search call, by `scores` = the inner product of the query with each stored
vector in storage order (so local position i scores `scores[i]`);
`profile_indices` is the local-to-global mapping. -/
structure ClusterInfo where
  scores : List Int
  profile_indices : List Nat
deriving DecidableEq

/-- Modelled from the spec: the per-cluster inner-product similarity index
(the FAISS IndexFlatIP library object built in write.py, external to the
repository).  Per the spec, a similarity search returns the stored vectors
most similar to the query, scored by inner product, here as (local position,
score) pairs in descending score order; when the requested neighbor count k
exceeds the number of stored vectors, the result is padded with the sentinel
position -1. -/
def indexSearch (scores : List Int) (k : Nat) : List (Int × Int) :=
  ((sortDesc (fun p => p.2) scores.enum).take k).map (fun p => ((p.1 : Int), p.2))
    ++ List.replicate (k - scores.length) (-1, 0)

example : indexSearch [3, 8, 5] 2 = [(1, 8), (2, 5)] := by decide
example : indexSearch [3] 3 = [(0, 3), (-1, 0), (-1, 0)] := by decide

/-- numpy 1-d integer indexing: a negative position wraps from the end (the
`faiss_idx < len(profile_indices)` guard in the code does not exclude the
FAISS sentinel -1).  Positions below -len do not occur in the composed model
(the index model only pads with -1, and only when at least one vector is
requested beyond a nonempty mapping). -/
def npGet (l : List Nat) (p : Int) : Nat :=
  if p < 0 then l.getD (l.length - (-p).toNat) 0 else l.getD p.toNat 0

/-- Python dict insertion for `faiss_to_profile_map[key] = value`: an existing
key keeps its insertion position and has its value overwritten, a new key is
appended. -/
def dictInsert (m : List (Nat × Int)) (k : Nat) (v : Int) : List (Nat × Int) :=
  match m with
  | [] => [(k, v)]
  | (k1, v1) :: rest => if k1 = k then (k, v) :: rest else (k1, v1) :: dictInsert rest k v

/-- Embedding of the map-building loop of `search` (profiles.py lines
234-238): for each returned (position, score) pair, when
`faiss_idx < len(profile_indices)` the global identity
`profile_indices[faiss_idx]` is mapped to that score, with dict overwrite
semantics. -/
def faiss_to_profile_map (pairs : List (Int × Int)) (profile_indices : List Nat) :
    List (Nat × Int) :=
  pairs.foldl
    (fun m pr =>
      if pr.1 < (profile_indices.length : Int) then
        dictInsert m (npGet profile_indices pr.1) pr.2
      else m)
    []

example : faiss_to_profile_map [(0, 9), (0, 5)] [7] = [(7, 5)] := by decide
example : faiss_to_profile_map [(0, 9), (5, 4)] [7] = [(7, 9)] := by decide

/-- A merged search result: the code stores the looked-up
`self.profiles[profile_idx]` object together with the similarity score and the
cluster id; `profile_idx` records the global identity the stored reference
points to. -/
structure SearchResult where
  profile : ProfileData
  profile_idx : Nat
  similarity : Int
  cluster_id : Nat
deriving DecidableEq

/-- Result collection of the cluster loop (profiles.py lines 256-263): for
each surviving index, if it is a key of the map, append a result with
`self.profiles[profile_idx]` (IndexError when out of range). -/
def collectResults (profiles : List ProfileData) (filtered : List Nat)
    (fmap : List (Nat × Int)) (cluster_id : Nat) : Except PyErr (List SearchResult) :=
  match filtered with
  | [] => Except.ok []
  | idx :: rest =>
    match List.lookup idx fmap with
    | none => collectResults profiles rest fmap cluster_id
    | some s =>
      match profiles.get? idx with
      | none => Except.error PyErr.indexError
      | some p =>
        match collectResults profiles rest fmap cluster_id with
        | Except.error e => Except.error e
        | Except.ok r =>
          Except.ok (SearchResult.mk p idx s cluster_id :: r)

/-- Body of the cluster loop of `search` (profiles.py lines 216-263) for one
cluster: request `k_for_cluster = min(top_k * 3, len(profile_indices))`
neighbors, build the identity-to-score map, optionally apply the hard-criteria
filter to the key list (dict keys iterate in insertion order), and collect the
scored results. -/
def clusterResults (profiles : List ProfileData) (hard : Option HardCriteria)
    (top_k : Nat) (cluster_id : Nat) (info : ClusterInfo) :
    Except PyErr (List SearchResult) :=
  let k_for_cluster := min (top_k * 3) info.profile_indices.length
  let fmap := faiss_to_profile_map (indexSearch info.scores k_for_cluster) info.profile_indices
  let candidates := fmap.map (fun pr => pr.1)
  match (match hard with
         | some c => apply_hard_criteria profiles candidates c
         | none => Except.ok candidates) with
  | Except.error e => Except.error e
  | Except.ok filtered => collectResults profiles filtered fmap cluster_id

/-- The cluster loop of `search` over the router-selected cluster ids, in
router order; a cluster id missing from `faiss_indices` is skipped
(profiles.py lines 217-218), an exception aborts the whole call. -/
def searchClusters (profiles : List ProfileData)
    (faiss_indices : List (Nat × ClusterInfo)) (hard : Option HardCriteria)
    (top_k : Nat) : List Nat → Except PyErr (List SearchResult)
  | [] => Except.ok []
  | cid :: rest =>
    match List.lookup cid faiss_indices with
    | none => searchClusters profiles faiss_indices hard top_k rest
    | some info =>
      match clusterResults profiles hard top_k cid info with
      | Except.error e => Except.error e
      | Except.ok rs =>
        match searchClusters profiles faiss_indices hard top_k rest with
        | Except.error e => Except.error e
        | Except.ok rest1 => Except.ok (rs ++ rest1)

/-- The `all_results` list of `search` just before the final sort (profiles.py
line 214-263): per-cluster results concatenated in router order, each cluster
contribution in the order the similarity search returned the identities. -/
def all_results (profiles : List ProfileData)
    (faiss_indices : List (Nat × ClusterInfo)) (sims : List Int)
    (hard : Option HardCriteria) (top_k top_k_clusters : Nat) :
    Except PyErr (List SearchResult) :=
  searchClusters profiles faiss_indices hard top_k
    (find_relevant_clusters sims (faiss_indices.map (fun pr => pr.1)) top_k_clusters)

/-- Embedding of `SearchProfilesService.search` (profiles.py lines 188-267):
route the query to the most relevant clusters, search each, then
`all_results.sort(key=..., reverse=True)` (Python stable sort, descending by
similarity) and return the first `top_k`.  `sims` abstracts the query/centroid
similarities as in `find_relevant_clusters`; each ClusterInfo abstracts the
query/stored-vector similarities of one built index. -/
def search (profiles : List ProfileData) (faiss_indices : List (Nat × ClusterInfo))
    (sims : List Int) (hard : Option HardCriteria) (top_k top_k_clusters : Nat) :
    Except PyErr (List SearchResult) :=
  match all_results profiles faiss_indices sims hard top_k top_k_clusters with
  | Except.error e => Except.error e
  | Except.ok results =>
    Except.ok ((sortDesc (fun r => r.similarity) results).take top_k)

example :
    search [{}] [(0, ⟨[5], [0]⟩), (1, ⟨[7], [0]⟩)] [10, 9] none 10 3 =
      Except.ok [⟨{}, 0, 7, 1⟩, ⟨{}, 0, 5, 0⟩] := by decide

/-! ## Supporting lemmas about the hard-criteria filter -/

theorem check_profile_min_connections (p : ProfileData) (c : HardCriteria) (v : Option Int) :
    check_profile p { c with min_connections := v } = check_profile p c := rfl

theorem apply_hard_criteria_min_connections (profiles : List ProfileData)
    (idxs : List Nat) (c : HardCriteria) (v : Option Int) :
    apply_hard_criteria profiles idxs { c with min_connections := v } =
      apply_hard_criteria profiles idxs c := by
  induction idxs with
  | nil => rfl
  | cons i rest ih =>
    simp only [apply_hard_criteria, check_profile_min_connections, ih]

theorem apply_ok_mem (profiles : List ProfileData) (c : HardCriteria) :
    ∀ (idxs r : List Nat), apply_hard_criteria profiles idxs c = Except.ok r →
      ∀ i ∈ r, ∃ p, profiles.get? i = some p ∧ check_profile p c = Except.ok true := by
  intro idxs
  induction idxs with
  | nil =>
    intro r h
    simp only [apply_hard_criteria] at h
    cases h
    intro i hi
    cases hi
  | cons j rest ih =>
    intro r h
    cases hj : profiles.get? j with
    | none =>
      simp only [apply_hard_criteria, hj] at h
      exact Except.noConfusion h
    | some p =>
      cases hc : check_profile p c with
      | error e =>
        simp only [apply_hard_criteria, hj, hc] at h
        exact Except.noConfusion h
      | ok b =>
        cases b with
        | false =>
          simp only [apply_hard_criteria, hj, hc] at h
          exact ih r h
        | true =>
          cases hrest : apply_hard_criteria profiles rest c with
          | error e =>
            simp only [apply_hard_criteria, hj, hc, hrest] at h
            exact Except.noConfusion h
          | ok r0 =>
            simp only [apply_hard_criteria, hj, hc, hrest, Except.ok.injEq] at h
            subst h
            intro i hi
            rcases List.mem_cons.mp hi with rfl | hi
            · exact ⟨p, hj, hc⟩
            · exact ih r0 hrest i hi

theorem apply_ok_of_all (profiles : List ProfileData) (c : HardCriteria) :
    ∀ l : List Nat,
      (∀ i ∈ l, ∃ p, profiles.get? i = some p ∧ check_profile p c = Except.ok true) →
      apply_hard_criteria profiles l c = Except.ok l := by
  intro l
  induction l with
  | nil => intro _; rfl
  | cons j rest ih =>
    intro h
    obtain ⟨p, hj, hc⟩ := h j (List.mem_cons_self j rest)
    have hrest := ih (fun i hi => h i (List.mem_cons_of_mem j hi))
    simp only [apply_hard_criteria, hj, hc, hrest]

/-- Attributes referenced by a present criterion category are present on the
profile (the list-valued skill and location attributes are always present in
the DTO and are not conditions here). -/
def referencedAttrsPresent (p : ProfileData) (c : HardCriteria) : Bool :=
  (!(c.min_experience.isSome || c.max_experience.isSome) || p.experience_years.isSome)
    && (!truthy c.industries || p.industry.isSome)
    && (!truthy c.companies || p.company.isSome)
    && (!truthy c.education_keywords || p.education.isSome)

theorem exAnd_ok (a b : Except PyErr Bool) (ha : ∃ b1, a = Except.ok b1)
    (hb : ∃ b2, b = Except.ok b2) : ∃ b3, exAnd a b = Except.ok b3 := by
  obtain ⟨b1, rfl⟩ := ha
  cases b1 with
  | false => exact ⟨false, rfl⟩
  | true => simpa [exAnd] using hb

theorem check_profile_ok_of_present (p : ProfileData) (c : HardCriteria)
    (h : referencedAttrsPresent p c = true) :
    ∃ b, check_profile p c = Except.ok b := by
  simp only [referencedAttrsPresent, Bool.and_eq_true, Bool.or_eq_true,
    Bool.not_eq_true'] at h
  obtain ⟨⟨⟨h1, h2⟩, h3⟩, h4⟩ := h
  refine exAnd_ok _ _ ?_ (exAnd_ok _ _ ?_ (exAnd_ok _ _ ?_ (exAnd_ok _ _ ?_
    (exAnd_ok _ _ ?_ (exAnd_ok _ _ ?_ (exAnd_ok _ _ ?_ ?_))))))
  · unfold catExpMin
    cases hm : c.min_experience with
    | none => exact ⟨true, rfl⟩
    | some m =>
      have hys : p.experience_years.isSome = true := by
        rcases h1 with h1 | h1
        · rw [hm] at h1; simp at h1
        · exact h1
      cases he : p.experience_years with
      | none => rw [he] at hys; exact Bool.noConfusion hys
      | some e => exact ⟨_, rfl⟩
  · unfold catExpMax
    cases hm : c.max_experience with
    | none => exact ⟨true, rfl⟩
    | some m =>
      have hys : p.experience_years.isSome = true := by
        rcases h1 with h1 | h1
        · rw [hm] at h1; simp at h1
        · exact h1
      cases he : p.experience_years with
      | none => rw [he] at hys; exact Bool.noConfusion hys
      | some e => exact ⟨_, rfl⟩
  · unfold catRequiredSkills
    by_cases ht : truthy c.required_skills = true
    · rw [if_pos ht]; exact ⟨_, rfl⟩
    · rw [if_neg ht]; exact ⟨_, rfl⟩
  · unfold catExcludedSkills
    by_cases ht : truthy c.excluded_skills = true
    · rw [if_pos ht]; exact ⟨_, rfl⟩
    · rw [if_neg ht]; exact ⟨_, rfl⟩
  · unfold catLocations
    by_cases ht : truthy c.locations = true
    · rw [if_pos ht]; exact ⟨_, rfl⟩
    · rw [if_neg ht]; exact ⟨_, rfl⟩
  · unfold catIndustries
    by_cases ht : truthy c.industries = true
    · rcases h2 with h2 | h2
      · rw [h2] at ht; exact Bool.noConfusion ht
      · cases hi : p.industry with
        | none => rw [hi] at h2; exact Bool.noConfusion h2
        | some ind => rw [if_pos ht]; exact ⟨_, rfl⟩
    · rw [if_neg ht]; exact ⟨_, rfl⟩
  · unfold catCompanies
    by_cases ht : truthy c.companies = true
    · rcases h3 with h3 | h3
      · rw [h3] at ht; exact Bool.noConfusion ht
      · cases hi : p.company with
        | none => rw [hi] at h3; exact Bool.noConfusion h3
        | some comp => rw [if_pos ht]; exact ⟨_, rfl⟩
    · rw [if_neg ht]; exact ⟨_, rfl⟩
  · unfold catEducation
    by_cases ht : truthy c.education_keywords = true
    · rcases h4 with h4 | h4
      · rw [h4] at ht; exact Bool.noConfusion ht
      · cases hi : p.education with
        | none => rw [hi] at h4; exact Bool.noConfusion h4
        | some ed => rw [if_pos ht]; exact ⟨_, rfl⟩
    · rw [if_neg ht]; exact ⟨_, rfl⟩

theorem filter_sortDesc {α : Type} (key : α → Int) (l : List α) (s : Int) :
    (sortDesc key l).filter (fun a => key a == s) = l.filter (fun a => key a == s) := by
  suffices h : ∀ acc : List α, List.Sorted (fun a b => key b ≤ key a) acc →
      (l.foldl (fun acc x => insertDesc key x acc) acc).filter (fun a => key a == s) =
        acc.filter (fun a => key a == s) ++ l.filter (fun a => key a == s) by
    simpa using h [] (by simp)
  induction l with
  | nil => intro acc hacc; simp
  | cons y ys ih =>
    intro acc hacc
    simp only [List.foldl_cons]
    rw [ih (insertDesc key y acc) (sorted_insertDesc key y acc hacc),
      filter_insertDesc key y acc s hacc, List.filter_cons]
    by_cases hy : key y == s
    · simp [hy]
    · simp [hy]


/-! ## Claims about the hard-criteria filter -/

/-- Claim C3 (refuted by the code, a bug): `apply_hard_criteria` is claimed to
enforce `min_connections` strictly, but the filter never reads that field: its
result is invariant under any `min_connections` value, and at the concrete
failing input a profile with 3 connections survives a minimum of 500. -/
theorem min_connections_not_enforced :
    (∀ (profiles : List ProfileData) (idxs : List Nat) (c : HardCriteria)
        (v : Option Int),
      apply_hard_criteria profiles idxs { c with min_connections := v } =
        apply_hard_criteria profiles idxs c)
    ∧ ((3 : Int) < 500
        ∧ apply_hard_criteria [{ connections := some 3 }] [0]
            { min_connections := some 500 } = Except.ok [0]) := by
  refine ⟨apply_hard_criteria_min_connections, by decide, by decide⟩

/-- Claim C4 counterexample: the filter does not tolerate a missing attribute
referenced by a present criterion; with `min_experience` set and
`experience_years` None, the comparison raises TypeError instead of failing
the category. -/
theorem apply_hard_criteria_raises_counterexample :
    apply_hard_criteria [{ experience_years := none }] [0]
      { min_experience := some 1 } = Except.error PyErr.typeError := by decide

/-- Claim C4 (amended): when every candidate index is in range and every
profile carries the attributes referenced by the present criteria
(`experience_years` for an experience bound; `industry`, `company`,
`education` for non-empty industry, company, education-keyword lists),
`apply_hard_criteria` returns normally; the always-present list-valued skill
and location categories never raise. -/
theorem apply_hard_criteria_ok_of_attrs_present (profiles : List ProfileData)
    (idxs : List Nat) (c : HardCriteria)
    (hidx : ∀ i ∈ idxs, i < profiles.length)
    (hp : ∀ p ∈ profiles, referencedAttrsPresent p c = true) :
    ∃ r, apply_hard_criteria profiles idxs c = Except.ok r := by
  induction idxs with
  | nil => exact ⟨[], rfl⟩
  | cons j rest ih =>
    have hj : j < profiles.length := hidx j (List.mem_cons_self j rest)
    have hget : profiles.get? j = some (profiles.get ⟨j, hj⟩) := List.get?_eq_get hj
    have hmem : profiles.get ⟨j, hj⟩ ∈ profiles := List.get_mem profiles j hj
    obtain ⟨b, hb⟩ := check_profile_ok_of_present _ c (hp _ hmem)
    obtain ⟨r0, hr0⟩ := ih (fun i hi => hidx i (List.mem_cons_of_mem j hi))
    cases b with
    | false =>
      refine ⟨r0, ?_⟩
      simp only [apply_hard_criteria, hget, hb, hr0]
    | true =>
      refine ⟨j :: r0, ?_⟩
      simp only [apply_hard_criteria, hget, hb, hr0]

/-- Witness for the amended claim C4 at a concrete input. -/
theorem apply_hard_criteria_ok_of_attrs_present_witness :
    ∃ r, apply_hard_criteria [{ experience_years := some 3, industry := some "Tech" }]
      [0] { min_experience := some 1, industries := some ["tech"] } = Except.ok r :=
  apply_hard_criteria_ok_of_attrs_present _ _ _ (by decide) (by decide)

/-- Claim C7: the hard-criteria filter is idempotent: applying
`apply_hard_criteria` to its own (successful) output returns that output
unchanged, as a list, so both as a set and in order; an exceptional first
application propagates unchanged. -/
theorem apply_hard_criteria_idempotent (profiles : List ProfileData)
    (c : HardCriteria) (S : List Nat) :
    (apply_hard_criteria profiles S c).bind
        (fun r => apply_hard_criteria profiles r c) =
      apply_hard_criteria profiles S c := by
  cases h : apply_hard_criteria profiles S c with
  | error e => rfl
  | ok r => exact apply_ok_of_all profiles c r (apply_ok_mem profiles c S r h)

/-! ## Claims about cluster-count selection and the index build -/

/-- Claim C5 (refuted by the code, a bug): with 49 embeddings,
`range(5, min(100, 49 // 10))` is empty, and automatic cluster-count selection
fails with the numpy ValueError raised by `np.argmax` on an empty sequence -
an unrelated error - instead of surfacing a DataInsufficient condition,
whatever the silhouette metric returns. -/
theorem find_optimal_clusters_small_corpus_value_error :
    ∀ silhouette : Nat → Int,
      find_optimal_clusters silhouette 49 100 = Except.error ClusterError.valueError
      ∧ (Except.error ClusterError.valueError : Except ClusterError Nat) ≠
          Except.error ClusterError.dataInsufficient := by
  intro silhouette
  exact ⟨rfl, by decide⟩

theorem cluster_profile_indices_sorted (labels : List Nat) (c : Nat) :
    List.Sorted (fun a b => a < b) (cluster_profile_indices labels c) :=
  List.Pairwise.filter _ (List.pairwise_lt_range labels.length)

theorem cluster_profile_indices_mem (labels : List Nat) (c : Nat) (i : Nat) :
    i ∈ cluster_profile_indices labels c ↔ labels.get? i = some c := by
  simp only [cluster_profile_indices, List.mem_filter, List.mem_range, beq_iff_eq]
  constructor
  · exact fun h => h.2
  · intro h
    exact ⟨(List.get?_eq_some.mp h).1, h⟩

theorem cluster_profile_indices_cons (l : Nat) (ls : List Nat) (c : Nat) :
    cluster_profile_indices (l :: ls) c =
      (if l = c then [0] else []) ++ (cluster_profile_indices ls c).map Nat.succ := by
  unfold cluster_profile_indices
  rw [List.length_cons, List.range_succ_eq_map, List.filter_cons, List.filter_map]
  have hp : ((fun i => (l :: ls).get? i == some c) ∘ Nat.succ) =
      (fun i => ls.get? i == some c) := by
    funext i
    rfl
  rw [hp]
  by_cases hl : l = c
  · simp [hl]
  · have : ((l :: ls).get? 0 == some c) = false := by
      simp [hl]
    simp [this, hl]

theorem cluster_embeddings_filterMap {V : Type} :
    ∀ (labels : List Nat) (embeddings : List V) (c : Nat),
      embeddings.length = labels.length →
      cluster_embeddings embeddings labels c =
        (cluster_profile_indices labels c).filterMap (fun i => embeddings.get? i) := by
  intro labels
  induction labels with
  | nil =>
    intro embeddings c h
    rw [List.length_nil, List.length_eq_zero] at h
    subst h
    rfl
  | cons l ls ih =>
    intro embeddings c h
    cases embeddings with
    | nil => simp at h
    | cons e es =>
      rw [List.length_cons, List.length_cons, Nat.succ_inj] at h
      rw [cluster_profile_indices_cons, List.filterMap_append, List.filterMap_map]
      have htail : ((fun i => (e :: es).get? i) ∘ Nat.succ) = (fun i => es.get? i) := by
        funext i
        rfl
      rw [htail, ← ih es c h]
      unfold cluster_embeddings
      rw [List.zip_cons_cons, List.filter_cons]
      by_cases hl : l = c
      · simp [hl]
      · simp [hl]

/-- Claim C9: for every embedding list and label list of equal length and
every target cluster, the index build keeps, as the local-to-global mapping,
exactly the corpus positions labelled with that cluster, in ascending corpus
order, and adds the member vectors to the cluster index in exactly that order,
so mapping every local position back through the list yields exactly the
member set (round-trip). -/
theorem write_local_to_global_roundtrip {V : Type} (embeddings : List V)
    (cluster_labels : List Nat) (target : Nat)
    (h : embeddings.length = cluster_labels.length) :
    List.Sorted (fun a b => a < b) (cluster_profile_indices cluster_labels target)
    ∧ (∀ i, i ∈ cluster_profile_indices cluster_labels target ↔
        cluster_labels.get? i = some target)
    ∧ cluster_embeddings embeddings cluster_labels target =
        (cluster_profile_indices cluster_labels target).filterMap
          (fun i => embeddings.get? i) :=
  ⟨cluster_profile_indices_sorted cluster_labels target,
   cluster_profile_indices_mem cluster_labels target,
   cluster_embeddings_filterMap cluster_labels embeddings target h⟩

/-- Witness for claim C9 at a concrete input. -/
theorem write_local_to_global_roundtrip_witness :
    List.Sorted (fun a b => a < b) (cluster_profile_indices [0, 1, 0, 2, 1] 1)
    ∧ (∀ i, i ∈ cluster_profile_indices [0, 1, 0, 2, 1] 1 ↔
        List.get? [0, 1, 0, 2, 1] i = some 1)
    ∧ cluster_embeddings [10, 11, 12, 13, 14] [0, 1, 0, 2, 1] 1 =
        (cluster_profile_indices [0, 1, 0, 2, 1] 1).filterMap
          (fun i => List.get? [10, 11, 12, 13, 14] i) :=
  write_local_to_global_roundtrip [10, 11, 12, 13, 14] [0, 1, 0, 2, 1] 1 (by decide)

/-! ## Claims about the query router -/

/-- Claim C6 counterexample: with centroid similarities [5, 9, 1], built
indices for clusters 0 and 2 only, and a request for the top 2 clusters, the
code slices the similarity ranking [1, 0, 2] to [1, 0] before dropping ids
without a built index, returning [0]; the claimed behavior - the top-2 ids
among the indexed clusters, all of them since exactly 2 exist - is [0, 2]. -/
theorem find_relevant_clusters_counterexample :
    find_relevant_clusters [5, 9, 1] [0, 2] 2 = [0]
    ∧ 2 ∉ find_relevant_clusters [5, 9, 1] [0, 2] 2
    ∧ 2 ∈ [0, 2] := by decide

theorem getD_of_get? {l : List Int} {i : Nat} {v : Int} (h : l.get? i = some v) :
    l.getD i 0 = v := by
  simp [List.getD_eq_getElem?_getD, ← List.get?_eq_getElem?, h]

/-- Claim C6 (amended): the router returns the indexed ids among the
`top_k_clusters` most similar centroids, in descending centroid-similarity
order: every returned id is indexed and is a centroid position, at most
`top_k_clusters` ids are returned, the returned list is descending in
similarity, and - only when `top_k_clusters` covers all centroids - it is
exactly the set of indexed centroid positions.  (As the counterexample shows,
for smaller `top_k_clusters` an indexed cluster outside the similarity top-N
is dropped rather than replaced, so the claimed if-fewer-indexed-exist-return-
all behavior does not hold in general.) -/
theorem find_relevant_clusters_spec (sims : List Int) (indexed : List Nat)
    (n : Nat) :
    (∀ c ∈ find_relevant_clusters sims indexed n, c ∈ indexed ∧ c < sims.length)
    ∧ (find_relevant_clusters sims indexed n).length ≤ n
    ∧ List.Pairwise (fun a b => sims.getD b 0 ≤ sims.getD a 0)
        (find_relevant_clusters sims indexed n)
    ∧ (sims.length ≤ n → ∀ c,
        (c ∈ find_relevant_clusters sims indexed n ↔ (c ∈ indexed ∧ c < sims.length))) := by
  have hmemL : ∀ p : Nat × Int, p ∈ sortDesc (fun q : Nat × Int => q.2) sims.enum →
      sims.get? p.1 = some p.2 := by
    intro p hp
    rw [mem_sortDesc] at hp
    rw [List.get?_eq_getElem?]
    exact List.mem_enum_iff_getElem?.mp hp
  refine ⟨?_, ?_, ?_, ?_⟩
  · intro c hc
    obtain ⟨p, hpF, rfl⟩ := List.mem_map.mp hc
    obtain ⟨hpT, hdec⟩ := List.mem_filter.mp hpF
    have hpL := List.mem_of_mem_take hpT
    have hget := hmemL p hpL
    exact ⟨of_decide_eq_true hdec, (List.get?_eq_some.mp hget).1⟩
  · calc (find_relevant_clusters sims indexed n).length
        = (((sortDesc (fun q : Nat × Int => q.2) sims.enum).take n).filter
            (fun p => decide (p.1 ∈ indexed))).length := by
          simp [find_relevant_clusters]
      _ ≤ ((sortDesc (fun q : Nat × Int => q.2) sims.enum).take n).length :=
          List.length_filter_le _ _
      _ ≤ n := List.length_take_le n _
  · have hsorted := sorted_sortDesc (fun q : Nat × Int => q.2) sims.enum
    have hT : List.Pairwise (fun p q : Nat × Int => q.2 ≤ p.2)
        ((sortDesc (fun q : Nat × Int => q.2) sims.enum).take n) :=
      List.Pairwise.sublist (List.take_sublist n _) hsorted
    have hF : List.Pairwise (fun p q : Nat × Int => q.2 ≤ p.2)
        (((sortDesc (fun q : Nat × Int => q.2) sims.enum).take n).filter
          (fun p => decide (p.1 ∈ indexed))) :=
      List.Pairwise.sublist (List.filter_sublist _) hT
    rw [find_relevant_clusters, List.pairwise_map]
    refine List.Pairwise.imp_of_mem ?_ hF
    intro p q hp hq hpq
    have hgp := hmemL p (List.mem_of_mem_take (List.mem_filter.mp hp).1)
    have hgq := hmemL q (List.mem_of_mem_take (List.mem_filter.mp hq).1)
    rw [getD_of_get? hgp, getD_of_get? hgq]
    exact hpq
  · intro hlen c
    have hLlen : (sortDesc (fun q : Nat × Int => q.2) sims.enum).length ≤ n := by
      rw [length_sortDesc, List.enum_length]
      exact hlen
    rw [find_relevant_clusters, List.take_of_length_le hLlen]
    constructor
    · intro hc
      obtain ⟨p, hpF, rfl⟩ := List.mem_map.mp hc
      obtain ⟨hpL, hdec⟩ := List.mem_filter.mp hpF
      have hget := hmemL p hpL
      exact ⟨of_decide_eq_true hdec, (List.get?_eq_some.mp hget).1⟩
    · rintro ⟨hcidx, hclt⟩
      refine List.mem_map.mpr ⟨(c, sims.get ⟨c, hclt⟩), ?_, rfl⟩
      refine List.mem_filter.mpr ⟨?_, decide_eq_true hcidx⟩
      rw [mem_sortDesc]
      apply List.mem_enum_iff_getElem?.mpr
      rw [← List.get?_eq_getElem?]
      exact List.get?_eq_get hclt

/-- Witness for the amended claim C6: extracting the completeness clause at a
concrete input. -/
theorem find_relevant_clusters_spec_witness :
    0 ∈ find_relevant_clusters [5, 3] [0, 1] 3 :=
  ((find_relevant_clusters_spec [5, 3] [0, 1] 3).2.2.2 (by decide) 0).mpr (by decide)

/-! ## Claims about the per-cluster identity-to-score map -/

theorem lookup_dictInsert (m : List (Nat × Int)) (k : Nat) (v : Int) (a : Nat) :
    List.lookup a (dictInsert m k v) = if a = k then some v else List.lookup a m := by
  induction m with
  | nil =>
    by_cases h : a = k
    · simp [dictInsert, List.lookup, h]
    · have hne : (a == k) = false := beq_eq_false_iff_ne.mpr h
      simp [dictInsert, List.lookup, hne, h]
  | cons kv rest ih =>
    obtain ⟨k1, v1⟩ := kv
    simp only [dictInsert]
    by_cases h1 : k1 = k
    · subst h1
      by_cases h : a = k1
      · subst h
        simp [List.lookup]
      · have hne : (a == k1) = false := beq_eq_false_iff_ne.mpr h
        simp [List.lookup, hne, h]
    · rw [if_neg h1]
      by_cases h : a = k
      · subst h
        have hne : (a == k1) = false := by
          simp only [beq_eq_false_iff_ne, ne_eq]
          exact fun hc => h1 hc.symm
        simp [List.lookup, hne, ih]
      · by_cases h2 : a = k1
        · subst h2
          simp [List.lookup, h]
        · simp [List.lookup, h2, h, ih]

/-- The sequence of scores that the map-building loop writes under a given
global identity, in loop order: the scores of the valid returned positions
that translate to that identity. -/
def valid_scores_for (pairs : List (Int × Int)) (profile_indices : List Nat)
    (key : Nat) : List Int :=
  pairs.filterMap (fun pr =>
    if pr.1 < (profile_indices.length : Int) ∧ npGet profile_indices pr.1 = key
    then some pr.2 else none)

/-- Option.or, spelled out to keep proofs independent of library naming. -/
def optOr {α : Type} (a b : Option α) : Option α :=
  match a with
  | some v => some v
  | none => b

theorem getLast?_cons_optOr {α : Type} (x : α) (l : List α) :
    (x :: l).getLast? = optOr l.getLast? (some x) := by
  induction l generalizing x with
  | nil => rfl
  | cons y ys ih =>
    rw [List.getLast?_cons_cons, ih y]
    cases hys : ys.getLast? with
    | none =>
      have : ys = [] := List.getLast?_eq_none_iff.mp hys
      subst this
      rfl
    | some z => rfl

theorem lookup_map_foldl (pidx : List Nat) (key : Nat) :
    ∀ (pairs : List (Int × Int)) (m : List (Nat × Int)),
      List.lookup key
        (pairs.foldl
          (fun m pr =>
            if pr.1 < (pidx.length : Int) then dictInsert m (npGet pidx pr.1) pr.2
            else m)
          m) =
      optOr (valid_scores_for pairs pidx key).getLast? (List.lookup key m) := by
  intro pairs
  induction pairs with
  | nil => intro m; rfl
  | cons pr rest ih =>
    intro m
    rw [List.foldl_cons, ih]
    by_cases hv : pr.1 < (pidx.length : Int)
    · by_cases hk : npGet pidx pr.1 = key
      · have hvs : valid_scores_for (pr :: rest) pidx key =
            pr.2 :: valid_scores_for rest pidx key := by
          simp [valid_scores_for, List.filterMap_cons, hv, hk]
        rw [hvs, getLast?_cons_optOr, if_pos hv, lookup_dictInsert, hk, if_pos rfl]
        cases (valid_scores_for rest pidx key).getLast? with
        | none => rfl
        | some z => rfl
      · have hvs : valid_scores_for (pr :: rest) pidx key =
            valid_scores_for rest pidx key := by
          simp [valid_scores_for, List.filterMap_cons, hv, hk]
        rw [hvs, if_pos hv, lookup_dictInsert,
          if_neg (fun hc => hk hc.symm)]
    · have hvs : valid_scores_for (pr :: rest) pidx key =
          valid_scores_for rest pidx key := by
        simp [valid_scores_for, List.filterMap_cons, hv]
      rw [hvs, if_neg hv]

/-- Claim C2 counterexample: when the similarity index returns local position
0 twice, first with score 9 then with score 5, the map built by the loop keeps
5 - the later, lower score - for the translated identity 7, not the claimed
higher score 9. -/
theorem faiss_to_profile_map_counterexample :
    faiss_to_profile_map [(0, 9), (0, 5)] [7] = [(7, 5)]
    ∧ List.lookup 7 (faiss_to_profile_map [(0, 9), (0, 5)] [7]) = some 5
    ∧ max 9 5 ≠ (5 : Int) := by decide

/-- Claim C2 (amended): for a duplicated identity the per-cluster map keeps
the score of the LAST valid occurrence in returned order (plain dict
overwrite), not the higher one: the looked-up score of any identity is the
last entry of the sequence of valid scores written for it. -/
theorem faiss_to_profile_map_keeps_last (pairs : List (Int × Int))
    (profile_indices : List Nat) (key : Nat) :
    List.lookup key (faiss_to_profile_map pairs profile_indices) =
      (valid_scores_for pairs profile_indices key).getLast? := by
  rw [faiss_to_profile_map, lookup_map_foldl]
  cases (valid_scores_for pairs profile_indices key).getLast? with
  | none => rfl
  | some z => rfl

/-! ## Claim C10: in-bounds positions in the cluster search -/

theorem keys_dictInsert (k : Nat) (v : Int) (a : Nat) :
    ∀ m : List (Nat × Int),
      a ∈ (dictInsert m k v).map (fun pr => pr.1) →
        a = k ∨ a ∈ m.map (fun pr => pr.1) := by
  intro m
  induction m with
  | nil =>
    intro h
    simp [dictInsert] at h
    exact Or.inl h
  | cons kv rest ih =>
    obtain ⟨k1, v1⟩ := kv
    simp only [dictInsert]
    by_cases h1 : k1 = k
    · rw [if_pos h1]
      intro h
      rw [List.map_cons] at h
      rcases List.mem_cons.mp h with rfl | h
      · exact Or.inl rfl
      · exact Or.inr (by rw [List.map_cons]; exact List.mem_cons_of_mem _ h)
    · rw [if_neg h1]
      intro h
      rw [List.map_cons] at h
      rcases List.mem_cons.mp h with rfl | h
      · exact Or.inr (by rw [List.map_cons]; exact List.mem_cons_self _ _)
      · rcases ih h with h2 | h2
        · exact Or.inl h2
        · exact Or.inr (by rw [List.map_cons]; exact List.mem_cons_of_mem _ h2)

theorem keys_map_foldl (pidx : List Nat) :
    ∀ (pairs : List (Int × Int)) (m : List (Nat × Int)) (a : Nat),
      a ∈ ((pairs.foldl
          (fun m pr =>
            if pr.1 < (pidx.length : Int) then dictInsert m (npGet pidx pr.1) pr.2
            else m)
          m).map (fun pr => pr.1)) →
        a ∈ m.map (fun pr => pr.1)
        ∨ ∃ pr ∈ pairs, pr.1 < (pidx.length : Int) ∧ a = npGet pidx pr.1 := by
  intro pairs
  induction pairs with
  | nil => intro m a h; exact Or.inl h
  | cons pr rest ih =>
    intro m a h
    rw [List.foldl_cons] at h
    rcases ih _ a h with h2 | h2
    · by_cases hv : pr.1 < (pidx.length : Int)
      · rw [if_pos hv] at h2
        rcases keys_dictInsert _ _ a m h2 with h3 | h3
        · exact Or.inr ⟨pr, List.mem_cons_self _ _, hv, h3⟩
        · exact Or.inl h3
      · rw [if_neg hv] at h2
        exact Or.inl h2
    · obtain ⟨q, hq, hqv, hqa⟩ := h2
      exact Or.inr ⟨q, List.mem_cons_of_mem _ hq, hqv, hqa⟩

theorem npGet_mem_of_nonneg (l : List Nat) (p : Int) (h0 : 0 ≤ p)
    (hlt : p < (l.length : Int)) : npGet l p ∈ l := by
  unfold npGet
  rw [if_neg (not_lt.mpr h0)]
  have hn : p.toNat < l.length := by omega
  have hsome : l[p.toNat]? = some l[p.toNat] := List.getElem?_eq_getElem hn
  rw [List.getD_eq_getElem?_getD, hsome]
  exact List.getElem_mem hn

theorem indexSearch_mem_of_le (scores : List Int) (k : Nat) (hk : k ≤ scores.length) :
    ∀ pr ∈ indexSearch scores k, 0 ≤ pr.1 ∧ pr.1 < (scores.length : Int) := by
  intro pr hpr
  unfold indexSearch at hpr
  rw [Nat.sub_eq_zero_of_le hk] at hpr
  rw [List.replicate_zero, List.append_nil] at hpr
  rcases List.mem_map.mp hpr with ⟨q, hq, rfl⟩
  have hq2 := (mem_sortDesc (fun p : Nat × Int => p.2) scores.enum q).mp
    (List.mem_of_mem_take hq)
  have hget := List.mem_enum_iff_getElem?.mp hq2
  obtain ⟨hlt, -⟩ := List.getElem?_eq_some.mp hget
  refine ⟨Int.natCast_nonneg q.1, ?_⟩
  show (q.1 : Int) < (scores.length : Int)
  exact_mod_cast hlt

/-- Claim C10: the neighbor count `min(top_k * 3, len(profile_indices))`
requested from a cluster never exceeds the member count; consequently (for an
index artifact whose stored-vector count matches its mapping length, as the
build produces) the similarity search returns only nonnegative positions
strictly below the mapping length - no sentinel -1 and nothing out of range -
and every global identity entered in the per-cluster map is a member of
`profile_indices`, hence (when the mapping only holds positions into the
profile store) a valid `self.profiles[idx]` position. -/
theorem search_positions_in_bounds (profiles : List ProfileData)
    (info : ClusterInfo) (top_k : Nat)
    (hlen : info.scores.length = info.profile_indices.length)
    (hpi : ∀ i ∈ info.profile_indices, i < profiles.length) :
    min (top_k * 3) info.profile_indices.length ≤ info.profile_indices.length
    ∧ (∀ pr ∈ indexSearch info.scores (min (top_k * 3) info.profile_indices.length),
        0 ≤ pr.1 ∧ pr.1 < ((info.profile_indices.length : Int)))
    ∧ (∀ a ∈ (faiss_to_profile_map
          (indexSearch info.scores (min (top_k * 3) info.profile_indices.length))
          info.profile_indices).map (fun pr => pr.1),
        a ∈ info.profile_indices ∧ a < profiles.length) := by
  have hk : min (top_k * 3) info.profile_indices.length ≤ info.scores.length := by
    rw [hlen]
    exact Nat.min_le_right _ _
  have hmem := indexSearch_mem_of_le info.scores _ hk
  refine ⟨Nat.min_le_right _ _, ?_, ?_⟩
  · intro pr hpr
    obtain ⟨h0, hlt⟩ := hmem pr hpr
    rw [hlen] at hlt
    exact ⟨h0, hlt⟩
  · intro a ha
    rcases keys_map_foldl info.profile_indices _ _ a ha with h | h
    · simp at h
    · obtain ⟨pr, hpr, hv, rfl⟩ := h
      obtain ⟨h0, -⟩ := hmem pr hpr
      have hm := npGet_mem_of_nonneg info.profile_indices pr.1 h0 hv
      exact ⟨hm, hpi _ hm⟩

/-- Witness for claim C10 at a concrete input. -/
theorem search_positions_in_bounds_witness :
    min (1 * 3) (ClusterInfo.mk [4, 6] [1, 0]).profile_indices.length ≤
        (ClusterInfo.mk [4, 6] [1, 0]).profile_indices.length
    ∧ (∀ pr ∈ indexSearch (ClusterInfo.mk [4, 6] [1, 0]).scores
          (min (1 * 3) (ClusterInfo.mk [4, 6] [1, 0]).profile_indices.length),
        0 ≤ pr.1 ∧ pr.1 < (((ClusterInfo.mk [4, 6] [1, 0]).profile_indices.length : Int)))
    ∧ (∀ a ∈ (faiss_to_profile_map
          (indexSearch (ClusterInfo.mk [4, 6] [1, 0]).scores
            (min (1 * 3) (ClusterInfo.mk [4, 6] [1, 0]).profile_indices.length))
          (ClusterInfo.mk [4, 6] [1, 0]).profile_indices).map (fun pr => pr.1),
        a ∈ (ClusterInfo.mk [4, 6] [1, 0]).profile_indices ∧ a < (([{}, {}] : List ProfileData)).length) :=
  search_positions_in_bounds ([{}, {}] : List ProfileData) (ClusterInfo.mk [4, 6] [1, 0]) 1
    (by decide) (by decide)

/-! ## Claim C8: the merged output is sorted, truncated and tie-stable -/

/-- Claim C8: whenever `search` returns a result list, that list is sorted by
similarity in descending order and has length at most `top_k`; and for every
score value, the returned entries with that score are an order-preserving
prefix of the entries with that score in the pre-sort `all_results` stream -
which is, by construction, the clusters in router order and, within one
cluster, the order the similarity search returned the identities.  So exact
ties keep router order and within-cluster return order (Python list.sort is
stable). -/
theorem search_sorted_topk_stable (profiles : List ProfileData)
    (faiss_indices : List (Nat × ClusterInfo)) (sims : List Int)
    (hard : Option HardCriteria) (top_k top_k_clusters : Nat)
    (res : List SearchResult)
    (h : search profiles faiss_indices sims hard top_k top_k_clusters =
      Except.ok res) :
    List.Sorted (fun a b => b.similarity ≤ a.similarity) res
    ∧ res.length ≤ top_k
    ∧ ∃ all, all_results profiles faiss_indices sims hard top_k top_k_clusters =
        Except.ok all
      ∧ ∀ s : Int, ∃ t, all.filter (fun r => r.similarity == s) =
          res.filter (fun r => r.similarity == s) ++ t := by
  unfold search at h
  cases har : all_results profiles faiss_indices sims hard top_k top_k_clusters with
  | error e =>
    rw [har] at h
    exact Except.noConfusion h
  | ok all =>
    rw [har, Except.ok.injEq] at h
    subst h
    refine ⟨?_, ?_, all, rfl, ?_⟩
    · have hs := sorted_sortDesc (fun r : SearchResult => r.similarity) all
      exact List.Pairwise.sublist (List.take_sublist _ _) hs
    · exact List.length_take_le _ _
    · intro s
      refine ⟨(((sortDesc (fun r => r.similarity) all).drop top_k).filter
        (fun r => r.similarity == s)), ?_⟩
      rw [← List.filter_append, List.take_append_drop]
      exact (filter_sortDesc (fun r => r.similarity) all s).symm

/-- Witness for claim C8 at a concrete input. -/
theorem search_sorted_topk_stable_witness :
    List.Sorted (fun a b : SearchResult => b.similarity ≤ a.similarity)
        [SearchResult.mk {} 0 7 1, SearchResult.mk {} 0 5 0]
    ∧ ([SearchResult.mk {} 0 7 1, SearchResult.mk {} 0 5 0] : List SearchResult).length ≤ 10
    ∧ ∃ all, all_results [{}] [(0, ⟨[5], [0]⟩), (1, ⟨[7], [0]⟩)] [10, 9] none 10 3 =
        Except.ok all
      ∧ ∀ s : Int, ∃ t, all.filter (fun r => r.similarity == s) =
          ([SearchResult.mk {} 0 7 1, SearchResult.mk {} 0 5 0] : List SearchResult).filter
            (fun r => r.similarity == s) ++ t :=
  search_sorted_topk_stable [{}] [(0, ⟨[5], [0]⟩), (1, ⟨[7], [0]⟩)] [10, 9] none 10 3
    [SearchResult.mk {} 0 7 1, SearchResult.mk {} 0 5 0] (by decide)

/-! ## Claim C1: identities in the merged result -/

theorem apply_hard_criteria_sublist (profiles : List ProfileData) (c : HardCriteria) :
    ∀ (idxs r : List Nat), apply_hard_criteria profiles idxs c = Except.ok r →
      r.Sublist idxs := by
  intro idxs
  induction idxs with
  | nil =>
    intro r h
    simp only [apply_hard_criteria, Except.ok.injEq] at h
    subst h
    exact List.Sublist.refl []
  | cons j rest ih =>
    intro r h
    cases hj : profiles.get? j with
    | none =>
      simp only [apply_hard_criteria, hj] at h
      exact Except.noConfusion h
    | some p =>
      cases hc : check_profile p c with
      | error e =>
        simp only [apply_hard_criteria, hj, hc] at h
        exact Except.noConfusion h
      | ok b =>
        cases b with
        | false =>
          simp only [apply_hard_criteria, hj, hc] at h
          exact List.Sublist.cons j (ih r h)
        | true =>
          cases hrest : apply_hard_criteria profiles rest c with
          | error e =>
            simp only [apply_hard_criteria, hj, hc, hrest] at h
            exact Except.noConfusion h
          | ok r0 =>
            simp only [apply_hard_criteria, hj, hc, hrest, Except.ok.injEq] at h
            subst h
            exact List.Sublist.cons₂ j (ih r0 hrest)

theorem nodup_keys_dictInsert (k : Nat) (v : Int) :
    ∀ m : List (Nat × Int), (m.map (fun pr => pr.1)).Nodup →
      ((dictInsert m k v).map (fun pr => pr.1)).Nodup := by
  intro m
  induction m with
  | nil =>
    intro _
    simp [dictInsert]
  | cons kv rest ih =>
    obtain ⟨k1, v1⟩ := kv
    intro h
    rw [List.map_cons, List.nodup_cons] at h
    by_cases h1 : k1 = k
    · subst h1
      have hd : dictInsert ((k1, v1) :: rest) k1 v = (k1, v) :: rest := by
        simp [dictInsert]
      rw [hd, List.map_cons, List.nodup_cons]
      exact h
    · simp only [dictInsert, if_neg h1, List.map_cons, List.nodup_cons]
      refine ⟨?_, ih h.2⟩
      intro hmem
      rcases keys_dictInsert k v k1 rest hmem with h2 | h2
      · exact h1 h2
      · exact h.1 h2

theorem nodup_keys_map_foldl (pidx : List Nat) :
    ∀ (pairs : List (Int × Int)) (m : List (Nat × Int)),
      (m.map (fun pr => pr.1)).Nodup →
      (((pairs.foldl
          (fun m pr =>
            if pr.1 < (pidx.length : Int) then dictInsert m (npGet pidx pr.1) pr.2
            else m)
          m)).map (fun pr => pr.1)).Nodup := by
  intro pairs
  induction pairs with
  | nil => intro m h; exact h
  | cons pr rest ih =>
    intro m h
    rw [List.foldl_cons]
    by_cases hv : pr.1 < (pidx.length : Int)
    · rw [if_pos hv]
      exact ih _ (nodup_keys_dictInsert _ _ m h)
    · rw [if_neg hv]
      exact ih _ h

theorem fmap_keys_subset (info : ClusterInfo) (top_k : Nat) :
    ∀ a ∈ (faiss_to_profile_map
        (indexSearch info.scores (min (top_k * 3) info.profile_indices.length))
        info.profile_indices).map (fun pr => pr.1),
      a ∈ info.profile_indices := by
  intro a ha
  rcases keys_map_foldl info.profile_indices _ _ a ha with h | h
  · simp at h
  · obtain ⟨pr, hpr, hv, rfl⟩ := h
    unfold indexSearch at hpr
    rcases List.mem_append.mp hpr with hl | hr
    · rcases List.mem_map.mp hl with ⟨q, hq, rfl⟩
      exact npGet_mem_of_nonneg _ _ (Int.natCast_nonneg q.1) hv
    · have hrep := List.eq_of_mem_replicate hr
      subst hrep
      have hlen1 : 1 ≤ info.profile_indices.length := by
        by_contra h0
        push_neg at h0
        have hz : info.profile_indices.length = 0 := by omega
        have hk0 : min (top_k * 3) info.profile_indices.length = 0 := by
          rw [hz]
          simp
        rw [hk0] at hr
        simp at hr
      unfold npGet
      rw [if_pos (by norm_num : (-1 : Int) < 0)]
      have htn : ((-(-1 : Int)).toNat) = 1 := rfl
      rw [htn]
      have hn : info.profile_indices.length - 1 < info.profile_indices.length := by omega
      have hsome := List.getElem?_eq_getElem hn
      rw [List.getD_eq_getElem?_getD, hsome]
      exact List.getElem_mem hn

theorem collectResults_ok (profiles : List ProfileData) (fmap : List (Nat × Int))
    (cid : Nat) :
    ∀ (filtered : List Nat) (rs : List SearchResult),
      collectResults profiles filtered fmap cid = Except.ok rs →
      (rs.map (fun r => r.profile_idx)).Sublist filtered
      ∧ ∀ r ∈ rs, r.cluster_id = cid := by
  intro filtered
  induction filtered with
  | nil =>
    intro rs h
    simp only [collectResults, Except.ok.injEq] at h
    subst h
    refine ⟨List.nil_sublist _, ?_⟩
    intro r hr
    cases hr
  | cons idx rest ih =>
    intro rs h
    cases hl : List.lookup idx fmap with
    | none =>
      simp only [collectResults, hl] at h
      obtain ⟨hsub, hcid⟩ := ih rs h
      exact ⟨List.Sublist.cons idx hsub, hcid⟩
    | some sc =>
      cases hg : profiles.get? idx with
      | none =>
        simp only [collectResults, hl, hg] at h
        exact Except.noConfusion h
      | some p =>
        cases hrec : collectResults profiles rest fmap cid with
        | error e =>
          simp only [collectResults, hl, hg, hrec] at h
          exact Except.noConfusion h
        | ok r0 =>
          simp only [collectResults, hl, hg, hrec, Except.ok.injEq] at h
          subst h
          obtain ⟨hsub, hcid⟩ := ih r0 hrec
          constructor
          · rw [List.map_cons]
            exact List.Sublist.cons₂ idx hsub
          · intro r hr
            rcases List.mem_cons.mp hr with rfl | hr
            · rfl
            · exact hcid r hr

theorem clusterResults_ok (profiles : List ProfileData) (hard : Option HardCriteria)
    (top_k cid : Nat) (info : ClusterInfo) (rs : List SearchResult)
    (h : clusterResults profiles hard top_k cid info = Except.ok rs) :
    (rs.map (fun r => r.profile_idx)).Nodup
    ∧ ∀ r ∈ rs, r.cluster_id = cid ∧ r.profile_idx ∈ info.profile_indices := by
  have hkeysnd : ((faiss_to_profile_map
      (indexSearch info.scores (min (top_k * 3) info.profile_indices.length))
      info.profile_indices).map (fun pr => pr.1)).Nodup :=
    nodup_keys_map_foldl info.profile_indices _ [] List.nodup_nil
  have hmain : ∀ filtered : List Nat,
      filtered.Sublist ((faiss_to_profile_map
        (indexSearch info.scores (min (top_k * 3) info.profile_indices.length))
        info.profile_indices).map (fun pr => pr.1)) →
      collectResults profiles filtered
        (faiss_to_profile_map
          (indexSearch info.scores (min (top_k * 3) info.profile_indices.length))
          info.profile_indices) cid = Except.ok rs →
      (rs.map (fun r => r.profile_idx)).Nodup
      ∧ ∀ r ∈ rs, r.cluster_id = cid ∧ r.profile_idx ∈ info.profile_indices := by
    intro filtered hfsub hcoll
    obtain ⟨hsub, hcid⟩ := collectResults_ok profiles _ cid filtered rs hcoll
    have hsub2 := hsub.trans hfsub
    refine ⟨List.Nodup.sublist hsub2 hkeysnd, ?_⟩
    intro r hr
    refine ⟨hcid r hr, ?_⟩
    have hmem : r.profile_idx ∈ (faiss_to_profile_map
        (indexSearch info.scores (min (top_k * 3) info.profile_indices.length))
        info.profile_indices).map (fun pr => pr.1) :=
      hsub2.subset (List.mem_map.mpr ⟨r, hr, rfl⟩)
    exact fmap_keys_subset info top_k _ hmem
  cases hard with
  | none =>
    simp only [clusterResults] at h
    exact hmain _ (List.Sublist.refl _) h
  | some c =>
    simp only [clusterResults] at h
    cases happ : apply_hard_criteria profiles
        ((faiss_to_profile_map
          (indexSearch info.scores (min (top_k * 3) info.profile_indices.length))
          info.profile_indices).map (fun pr => pr.1)) c with
    | error e =>
      rw [happ] at h
      exact Except.noConfusion h
    | ok filtered =>
      rw [happ] at h
      exact hmain filtered (apply_hard_criteria_sublist profiles c _ filtered happ) h

theorem find_relevant_clusters_nodup (sims : List Int) (indexed : List Nat)
    (n : Nat) : (find_relevant_clusters sims indexed n).Nodup := by
  unfold find_relevant_clusters
  have h1 : (sims.enum.map (fun p => p.1)).Nodup := by
    rw [List.enum_map_fst]
    exact List.nodup_range _
  have h2 : ((sortDesc (fun p : Nat × Int => p.2) sims.enum).map
      (fun p => p.1)).Nodup :=
    (((perm_sortDesc (fun p : Nat × Int => p.2) sims.enum).map
      (fun p => p.1)).nodup_iff).mpr h1
  have h3 : ((((sortDesc (fun p : Nat × Int => p.2) sims.enum).take n).filter
      (fun p => decide (p.1 ∈ indexed)))).Sublist
      (sortDesc (fun p : Nat × Int => p.2) sims.enum) :=
    (List.filter_sublist _).trans (List.take_sublist _ _)
  exact List.Nodup.sublist (List.Sublist.map (fun p => p.1) h3) h2

theorem lookup_mem_cluster (fidx : List (Nat × ClusterInfo)) (a : Nat)
    (b : ClusterInfo) : List.lookup a fidx = some b → (a, b) ∈ fidx := by
  induction fidx with
  | nil => intro h; exact Option.noConfusion h
  | cons kv rest ih =>
    obtain ⟨k, v⟩ := kv
    intro h
    by_cases hk : a = k
    · subst hk
      simp only [List.lookup, beq_self_eq_true, Option.some.injEq] at h
      subst h
      exact List.mem_cons_self _ _
    · have hne : (a == k) = false := beq_eq_false_iff_ne.mpr hk
      simp only [List.lookup, hne] at h
      exact List.mem_cons_of_mem _ (ih h)

theorem searchClusters_ok (profiles : List ProfileData)
    (fidx : List (Nat × ClusterInfo)) (hard : Option HardCriteria) (top_k : Nat)
    (hdisj : ∀ (c1 c2 : Nat) (i1 i2 : ClusterInfo), c1 ≠ c2 →
      List.lookup c1 fidx = some i1 → List.lookup c2 fidx = some i2 →
      ∀ x ∈ i1.profile_indices, x ∉ i2.profile_indices) :
    ∀ (relevant : List Nat) (all : List SearchResult), relevant.Nodup →
      searchClusters profiles fidx hard top_k relevant = Except.ok all →
      (all.map (fun r => r.profile_idx)).Nodup
      ∧ ∀ r ∈ all, ∃ info, List.lookup r.cluster_id fidx = some info
          ∧ r.profile_idx ∈ info.profile_indices ∧ r.cluster_id ∈ relevant := by
  intro relevant
  induction relevant with
  | nil =>
    intro all _ h
    simp only [searchClusters, Except.ok.injEq] at h
    subst h
    refine ⟨List.nodup_nil, ?_⟩
    intro r hr
    cases hr
  | cons cid rest ih =>
    intro all hnd h
    rw [List.nodup_cons] at hnd
    cases hlk : List.lookup cid fidx with
    | none =>
      simp only [searchClusters, hlk] at h
      obtain ⟨h1, h2⟩ := ih all hnd.2 h
      refine ⟨h1, ?_⟩
      intro r hr
      obtain ⟨i, hi1, hi2, hi3⟩ := h2 r hr
      exact ⟨i, hi1, hi2, List.mem_cons_of_mem _ hi3⟩
    | some info =>
      cases hcr : clusterResults profiles hard top_k cid info with
      | error e =>
        simp only [searchClusters, hlk, hcr] at h
        exact Except.noConfusion h
      | ok rs =>
        cases hrec : searchClusters profiles fidx hard top_k rest with
        | error e =>
          simp only [searchClusters, hlk, hcr, hrec] at h
          exact Except.noConfusion h
        | ok rest1 =>
          simp only [searchClusters, hlk, hcr, hrec, Except.ok.injEq] at h
          subst h
          obtain ⟨hnd1, hprops⟩ := clusterResults_ok profiles hard top_k cid info rs hcr
          obtain ⟨hnd2, h2⟩ := ih rest1 hnd.2 hrec
          constructor
          · rw [List.map_append]
            refine List.Nodup.append hnd1 hnd2 ?_
            intro a ha1 ha2
            rcases List.mem_map.mp ha1 with ⟨r, hr, rfl⟩
            rcases List.mem_map.mp ha2 with ⟨r2, hr2, heq⟩
            obtain ⟨hcid1, hmem1⟩ := hprops r hr
            obtain ⟨info2, hl2, hmem2, hrel2⟩ := h2 r2 hr2
            have hne : cid ≠ r2.cluster_id := fun hc => hnd.1 (hc ▸ hrel2)
            exact hdisj cid r2.cluster_id info info2 hne hlk hl2 r.profile_idx hmem1
              (heq ▸ hmem2)
          · intro r hr
            rcases List.mem_append.mp hr with hr | hr
            · obtain ⟨hcid1, hmem1⟩ := hprops r hr
              refine ⟨info, ?_, hmem1, ?_⟩
              · rw [hcid1]
                exact hlk
              · rw [hcid1]
                exact List.mem_cons_self cid rest
            · obtain ⟨i, h1, h2m, h3⟩ := h2 r hr
              exact ⟨i, h1, h2m, List.mem_cons_of_mem _ h3⟩

/-- Claim C1 counterexample: two clusters whose local-to-global lists share
profile 0 both retrieve it (scores 5 and 7), and the merged result returned by
search contains the same profile identity twice - search performs no
cross-cluster deduplication, and neither occurrence is dropped in favor of the
higher score. -/
theorem search_duplicate_identity_counterexample :
    search [{}] [(0, ⟨[5], [0]⟩), (1, ⟨[7], [0]⟩)] [10, 9] none 10 3 =
      Except.ok [⟨{}, 0, 7, 1⟩, ⟨{}, 0, 5, 0⟩]
    ∧ ¬ (([⟨{}, 0, 7, 1⟩, ⟨{}, 0, 5, 0⟩] : List SearchResult).map
        (fun r => r.profile_idx)).Nodup := by decide

/-- Claim C1 (amended): search never deduplicates across clusters; but when
every searched cluster's local-to-global list comes from the index build over
one labeling (so the lists are pairwise disjoint, each profile belonging to
exactly one cluster), no profile identity appears twice in the merged result,
and each surviving occurrence carries the score and the cluster id of the
unique cluster that retrieved it - trivially the maximum score seen for that
profile. -/
theorem search_no_duplicate_identity (profiles : List ProfileData)
    (fidx : List (Nat × ClusterInfo)) (sims : List Int)
    (hard : Option HardCriteria) (top_k top_k_clusters : Nat)
    (labels : List Nat) (res : List SearchResult)
    (hbuild : ∀ e ∈ fidx, e.2.profile_indices = cluster_profile_indices labels e.1)
    (h : search profiles fidx sims hard top_k top_k_clusters = Except.ok res) :
    (res.map (fun r => r.profile_idx)).Nodup
    ∧ ∀ r ∈ res, ∃ info, List.lookup r.cluster_id fidx = some info
        ∧ r.profile_idx ∈ info.profile_indices := by
  have hdisj : ∀ (c1 c2 : Nat) (i1 i2 : ClusterInfo), c1 ≠ c2 →
      List.lookup c1 fidx = some i1 → List.lookup c2 fidx = some i2 →
      ∀ x ∈ i1.profile_indices, x ∉ i2.profile_indices := by
    intro c1 c2 i1 i2 hne hl1 hl2 x hx1 hx2
    have hm1 := hbuild (c1, i1) (lookup_mem_cluster fidx c1 i1 hl1)
    have hm2 := hbuild (c2, i2) (lookup_mem_cluster fidx c2 i2 hl2)
    rw [hm1] at hx1
    rw [hm2] at hx2
    have e1 := (cluster_profile_indices_mem labels c1 x).mp hx1
    have e2 := (cluster_profile_indices_mem labels c2 x).mp hx2
    rw [e1] at e2
    exact hne (Option.some.inj e2)
  unfold search at h
  cases har : all_results profiles fidx sims hard top_k top_k_clusters with
  | error e =>
    rw [har] at h
    exact Except.noConfusion h
  | ok all =>
    rw [har, Except.ok.injEq] at h
    subst h
    unfold all_results at har
    obtain ⟨hall1, hall2⟩ := searchClusters_ok profiles fidx hard top_k hdisj
      (find_relevant_clusters sims (fidx.map (fun pr => pr.1)) top_k_clusters) all
      (find_relevant_clusters_nodup sims (fidx.map (fun pr => pr.1)) top_k_clusters)
      har
    have hperm : ((sortDesc (fun r : SearchResult => r.similarity) all).map
        (fun r => r.profile_idx)).Nodup :=
      (((perm_sortDesc (fun r : SearchResult => r.similarity) all).map
        (fun r => r.profile_idx)).nodup_iff).mpr hall1
    constructor
    · have hsub := List.Sublist.map (fun r : SearchResult => r.profile_idx)
        (List.take_sublist top_k (sortDesc (fun r : SearchResult => r.similarity) all))
      exact List.Nodup.sublist hsub hperm
    · intro r hr
      have hr2 : r ∈ all := (perm_sortDesc (fun r : SearchResult => r.similarity)
        all).mem_iff.mp (List.mem_of_mem_take hr)
      obtain ⟨info, h1, h2, -⟩ := hall2 r hr2
      exact ⟨info, h1, h2⟩

/-- Witness for the amended claim C1 at a concrete input: two clusters built
from the labeling [0, 1]. -/
theorem search_no_duplicate_identity_witness :
    (([⟨{}, 1, 7, 1⟩, ⟨{}, 0, 5, 0⟩] : List SearchResult).map
        (fun r => r.profile_idx)).Nodup
    ∧ ∀ r ∈ ([⟨{}, 1, 7, 1⟩, ⟨{}, 0, 5, 0⟩] : List SearchResult),
        ∃ info, List.lookup r.cluster_id
            [(0, ClusterInfo.mk [5] [0]), (1, ClusterInfo.mk [7] [1])] = some info
          ∧ r.profile_idx ∈ info.profile_indices :=
  search_no_duplicate_identity [{}, {}]
    [(0, ClusterInfo.mk [5] [0]), (1, ClusterInfo.mk [7] [1])] [10, 9] none 10 3
    [0, 1] [⟨{}, 1, 7, 1⟩, ⟨{}, 0, 5, 0⟩] (by decide) (by decide)

/-- Witness instantiating the claim C5 theorem at a concrete silhouette
metric. -/
theorem find_optimal_clusters_small_corpus_value_error_witness :
    find_optimal_clusters (fun _ => 0) 49 100 = Except.error ClusterError.valueError
    ∧ (Except.error ClusterError.valueError : Except ClusterError Nat) ≠
        Except.error ClusterError.dataInsufficient :=
  find_optimal_clusters_small_corpus_value_error (fun _ => 0)

/-- Witness instantiating the claim C7 idempotence theorem at a concrete
input. -/
theorem apply_hard_criteria_idempotent_witness :
    (apply_hard_criteria [{ experience_years := some 4 }] [0] { min_experience := some 2 }).bind
        (fun r => apply_hard_criteria [{ experience_years := some 4 }] r
          { min_experience := some 2 }) =
      apply_hard_criteria [{ experience_years := some 4 }] [0] { min_experience := some 2 } :=
  apply_hard_criteria_idempotent [{ experience_years := some 4 }]
    { min_experience := some 2 } [0]

/-- Witness instantiating the amended claim C2 theorem at a concrete input. -/
theorem faiss_to_profile_map_keeps_last_witness :
    List.lookup 3 (faiss_to_profile_map [(0, 2), (0, 9)] [3]) =
      (valid_scores_for [(0, 2), (0, 9)] [3] 3).getLast? :=
  faiss_to_profile_map_keeps_last [(0, 2), (0, 9)] [3] 3

end MercorSearch
